import Mathlib

/-!
Verification of the Black-Scholes pricing engine (`BlackScholes.py`).

The engine is shallowly embedded over the real numbers:
* `round10` models `float(np.format_float_positional(x, precision=10))`,
  i.e. decimal rounding to ten digits after the decimal point
  (`format_float_positional` defaults to `fractional=True`, so `precision`
  counts fractional digits, not significant digits);
* `pyOr` models the Python expression `x or y` on an optional float,
  where both `None` and `0.0` are falsy;
* `normPdf` / `normCdf` model `scipy.stats.norm.pdf` / `norm.cdf`, the
  standard normal density and its cumulative distribution function, the
  latter expressed as its value `1/2` at `0` plus the integral of the
  density;
* `float('inf')` used for `max_call_gain` is modelled by `⊤ : EReal`.
-/

open MeasureTheory Set

/-- Decimal rounding to ten fractional digits: the model of
`float(np.format_float_positional(x, precision=10))`. -/
noncomputable def round10 (x : ℝ) : ℝ :=
  ((round (x * 10 ^ 10) : ℤ) : ℝ) / 10 ^ 10

/-- A real number representable with at most ten fractional decimal digits. -/
def IsRounded10 (x : ℝ) : Prop :=
  ∃ n : ℤ, x = (n : ℝ) / 10 ^ 10

/-- Python `purchase_time_to_maturity or time_to_maturity` (and
`call_purchase_price or 0.0`): `None` and `0.0` are both falsy. -/
noncomputable def pyOr (x : Option ℝ) (y : ℝ) : ℝ :=
  match x with
  | none => y
  | some v => if v = 0 then y else v

/-- Standard normal density, the model of `scipy.stats.norm.pdf`. -/
noncomputable def normPdf (x : ℝ) : ℝ :=
  (Real.sqrt (2 * Real.pi))⁻¹ * Real.exp (-x ^ 2 / 2)

/-- Standard normal cumulative distribution function, the model of
`scipy.stats.norm.cdf`, written as `Φ(0) = 1/2` plus the integral of the
density from `0`. -/
noncomputable def normCdf (x : ℝ) : ℝ :=
  1 / 2 + ∫ t in (0 : ℝ)..x, normPdf t

/-- State of a `BlackScholes` object after `__init__`: the stored instance
attributes.  `purchase_time_to_maturity` is always a real number because
`__init__` defaults it to `time_to_maturity`. -/
structure BlackScholes where
  time_to_maturity : ℝ
  strike : ℝ
  current_price : ℝ
  volatility : ℝ
  interest_rate : ℝ
  call_purchase_price : Option ℝ
  put_purchase_price : Option ℝ
  purchase_time_to_maturity : ℝ

/-- The constructor `BlackScholes.__init__`: every numeric input is passed
through `float(np.format_float_positional(·, precision=10))`; the purchase
time falls back to `time_to_maturity` via Python `or`. -/
noncomputable def mkBlackScholes (time_to_maturity strike current_price volatility interest_rate : ℝ)
    (call_purchase_price put_purchase_price : Option ℝ)
    (purchase_time_to_maturity : Option ℝ) : BlackScholes where
  time_to_maturity := round10 time_to_maturity
  strike := round10 strike
  current_price := round10 current_price
  volatility := round10 volatility
  interest_rate := round10 interest_rate
  call_purchase_price := call_purchase_price.map round10
  put_purchase_price := put_purchase_price.map round10
  purchase_time_to_maturity := round10 (pyOr purchase_time_to_maturity time_to_maturity)

/-- The quantity `d1` computed at the top of `calculate_prices`. -/
noncomputable def BlackScholes.d1 (b : BlackScholes) : ℝ :=
  (Real.log (b.current_price / b.strike) +
      (b.interest_rate + 0.5 * b.volatility ^ 2) * b.time_to_maturity) /
    (b.volatility * Real.sqrt b.time_to_maturity)

/-- The quantity `d2 = d1 - volatility * sqrt(time_to_maturity)`. -/
noncomputable def BlackScholes.d2 (b : BlackScholes) : ℝ :=
  b.d1 - b.volatility * Real.sqrt b.time_to_maturity

/-- The call-price expression before the final rounding. -/
noncomputable def BlackScholes.rawCallPrice (b : BlackScholes) : ℝ :=
  b.current_price * normCdf b.d1 -
    b.strike * Real.exp (-b.interest_rate * b.time_to_maturity) * normCdf b.d2

/-- The put-price expression before the final rounding. -/
noncomputable def BlackScholes.rawPutPrice (b : BlackScholes) : ℝ :=
  b.strike * Real.exp (-b.interest_rate * b.time_to_maturity) * normCdf (-b.d2) -
    b.current_price * normCdf (-b.d1)

/-- All attributes stored by `calculate_prices`. -/
structure PriceResult where
  call_price : ℝ
  put_price : ℝ
  call_pnl : ℝ
  call_pnl_percentage : ℝ
  put_pnl : ℝ
  put_pnl_percentage : ℝ
  call_delta : ℝ
  put_delta : ℝ
  gamma : ℝ

/-- The method `calculate_prices`.  Note that the PnL guard compares
`current_price` with itself, exactly as in the source, and that the three
greeks are stored without any rounding. -/
noncomputable def BlackScholes.calculate_prices (b : BlackScholes) : PriceResult where
  call_price := round10 b.rawCallPrice
  put_price := round10 b.rawPutPrice
  call_pnl :=
    match b.call_purchase_price with
    | none => 0
    | some p =>
      if |b.time_to_maturity - b.purchase_time_to_maturity| < 1e-10 ∧
          |b.current_price - b.current_price| < 1e-10 then 0
      else round10 (round10 b.rawCallPrice - p)
  call_pnl_percentage :=
    match b.call_purchase_price with
    | none => 0
    | some p =>
      if |b.time_to_maturity - b.purchase_time_to_maturity| < 1e-10 ∧
          |b.current_price - b.current_price| < 1e-10 then 0
      else round10 (if p ≠ 0 then round10 (round10 b.rawCallPrice - p) / p * 100 else 0)
  put_pnl :=
    match b.put_purchase_price with
    | none => 0
    | some p =>
      if |b.time_to_maturity - b.purchase_time_to_maturity| < 1e-10 ∧
          |b.current_price - b.current_price| < 1e-10 then 0
      else round10 (round10 b.rawPutPrice - p)
  put_pnl_percentage :=
    match b.put_purchase_price with
    | none => 0
    | some p =>
      if |b.time_to_maturity - b.purchase_time_to_maturity| < 1e-10 ∧
          |b.current_price - b.current_price| < 1e-10 then 0
      else round10 (if p ≠ 0 then round10 (round10 b.rawPutPrice - p) / p * 100 else 0)
  call_delta := normCdf b.d1
  put_delta := -normCdf (-b.d1)
  gamma := normPdf b.d1 / (b.current_price * b.volatility * Real.sqrt b.time_to_maturity)

/-- All attributes stored and returned by `calculate_risk_metrics`.
`max_call_gain` lives in the extended reals because the source stores
`float('inf')` there. -/
structure RiskMetrics where
  max_call_loss : ℝ
  max_put_loss : ℝ
  max_call_gain : EReal
  max_put_gain : ℝ
  call_breakeven : ℝ
  put_breakeven : ℝ

/-- The method `calculate_risk_metrics`. -/
noncomputable def BlackScholes.calculate_risk_metrics (b : BlackScholes) : RiskMetrics where
  max_call_loss :=
    round10 (match b.call_purchase_price with | some p => |p| | none => 0)
  max_put_loss :=
    round10 (match b.put_purchase_price with | some p => |p| | none => 0)
  max_call_gain :=
    match b.call_purchase_price with | some _ => ⊤ | none => ((0 : ℝ) : EReal)
  max_put_gain :=
    match b.put_purchase_price with | some p => round10 (b.strike - p) | none => 0
  call_breakeven := round10 (b.strike + pyOr b.call_purchase_price 0)
  put_breakeven := round10 (b.strike - pyOr b.put_purchase_price 0)

/-- Example state: the spec's reference scenario, no positions. -/
noncomputable def exParity : BlackScholes :=
  ⟨1, 100, 100, 0.2, 0.05, none, none, 1⟩

/-- Example state: the source's first test case (at-the-money, both legs). -/
noncomputable def exAtm : BlackScholes :=
  ⟨1, 100, 100, 0.2, 0.05, some 8, some 6, 1⟩

/-- Example state used against claim C1: negative call purchase price, with
the purchase time left at its default. -/
noncomputable def exC1 : BlackScholes :=
  ⟨1, 1, 1, 1, 0, some (-2), none, 1⟩

/-- Example state used against claim C3: call purchase price above any
possible call value, purchase time at its default. -/
noncomputable def exC3 : BlackScholes :=
  ⟨1, 2, 2, 1, 0, some 3, none, 1⟩

/-- Example state with a negative time to maturity, an input the claimed
validation would have to reject. -/
noncomputable def exBad : BlackScholes :=
  ⟨-1, 100, 100, 0.2, 0, none, none, -1⟩

/-- Example state whose purchase time differs from the current time to
maturity, so that the PnL really is computed from the price difference. -/
noncomputable def exFar : BlackScholes :=
  ⟨1, 100, 100, 0.2, 0.05, some 8, none, 0.5⟩

/-! ### Arithmetic of the ten-fractional-digit rounding -/

theorem round10_int_div (n : ℤ) : round10 ((n : ℝ) / 10 ^ 10) = (n : ℝ) / 10 ^ 10 := by
  unfold round10
  rw [div_mul_cancel₀ _ (by norm_num : (10 : ℝ) ^ 10 ≠ 0), round_intCast]

theorem isRounded10_round10 (x : ℝ) : IsRounded10 (round10 x) :=
  ⟨round (x * 10 ^ 10), rfl⟩

theorem IsRounded10.round10_eq {x : ℝ} (h : IsRounded10 x) : round10 x = x := by
  obtain ⟨n, rfl⟩ := h
  exact round10_int_div n

theorem IsRounded10.add {x y : ℝ} (hx : IsRounded10 x) (hy : IsRounded10 y) :
    IsRounded10 (x + y) := by
  obtain ⟨m, rfl⟩ := hx
  obtain ⟨n, rfl⟩ := hy
  exact ⟨m + n, by push_cast; ring⟩

theorem IsRounded10.neg {x : ℝ} (hx : IsRounded10 x) : IsRounded10 (-x) := by
  obtain ⟨m, rfl⟩ := hx
  exact ⟨-m, by push_cast; ring⟩

theorem IsRounded10.sub {x y : ℝ} (hx : IsRounded10 x) (hy : IsRounded10 y) :
    IsRounded10 (x - y) := by
  simpa [sub_eq_add_neg] using hx.add hy.neg

theorem IsRounded10.abs {x : ℝ} (hx : IsRounded10 x) : IsRounded10 |x| := by
  obtain ⟨m, rfl⟩ := hx
  refine ⟨|m|, ?_⟩
  rw [abs_div, abs_of_pos (by positivity : (0 : ℝ) < 10 ^ 10), Int.cast_abs]

theorem round10_mono {x y : ℝ} (h : x ≤ y) : round10 x ≤ round10 y := by
  unfold round10
  have hr : round (x * 10 ^ 10) ≤ round (y * 10 ^ 10) := by
    rw [round_eq, round_eq]
    exact Int.floor_mono (by nlinarith)
  have hr' : ((round (x * 10 ^ 10) : ℤ) : ℝ) ≤ ((round (y * 10 ^ 10) : ℤ) : ℝ) := by
    exact_mod_cast hr
  exact div_le_div_of_nonneg_right hr' (by norm_num) |>.trans_eq rfl

theorem abs_round10_sub (x : ℝ) : |round10 x - x| ≤ 1 / (2 * 10 ^ 10) := by
  have h := abs_sub_round (x * 10 ^ 10)
  rw [abs_sub_comm] at h
  have hE : (0 : ℝ) < 10 ^ 10 := by norm_num
  have hrw : round10 x - x = (((round (x * 10 ^ 10) : ℤ) : ℝ) - x * 10 ^ 10) / 10 ^ 10 := by
    unfold round10
    field_simp
    ring
  rw [hrw, abs_div, abs_of_pos hE]
  rw [div_le_iff₀ hE]
  calc |((round (x * 10 ^ 10) : ℤ) : ℝ) - x * 10 ^ 10| ≤ 1 / 2 := h
    _ = 1 / (2 * 10 ^ 10) * 10 ^ 10 := by norm_num

/-! ### The standard normal density and distribution function -/

theorem normPdf_pos (x : ℝ) : 0 < normPdf x := by
  unfold normPdf
  have h2 : (0 : ℝ) < Real.sqrt (2 * Real.pi) :=
    Real.sqrt_pos.mpr (by positivity)
  positivity

theorem normPdf_nonneg (x : ℝ) : 0 ≤ normPdf x := (normPdf_pos x).le

theorem normPdf_neg (x : ℝ) : normPdf (-x) = normPdf x := by
  simp [normPdf, neg_sq]

theorem continuous_normPdf : Continuous normPdf := by
  unfold normPdf
  fun_prop

theorem intervalIntegrable_normPdf (a b : ℝ) :
    IntervalIntegrable normPdf volume a b :=
  continuous_normPdf.intervalIntegrable a b

theorem exp_half_sq_eq (x : ℝ) :
    Real.exp (-x ^ 2 / 2) = Real.exp (-(1 / 2 : ℝ) * x ^ 2) := by
  congr 1
  ring

theorem integrable_normPdf : Integrable normPdf := by
  have h2 := (integrable_exp_neg_mul_sq (by norm_num : (0 : ℝ) < 1 / 2)).const_mul
    (Real.sqrt (2 * Real.pi))⁻¹
  unfold normPdf
  simp only [exp_half_sq_eq]
  exact h2

theorem integral_normPdf : ∫ x : ℝ, normPdf x = 1 := by
  unfold normPdf
  simp only [exp_half_sq_eq]
  rw [MeasureTheory.integral_mul_left, integral_gaussian]
  rw [show Real.pi / (1 / 2 : ℝ) = 2 * Real.pi by ring]
  exact inv_mul_cancel₀ (ne_of_gt (Real.sqrt_pos.mpr (by positivity)))

theorem integral_normPdf_Ioi : ∫ x in Ioi (0 : ℝ), normPdf x = 1 / 2 := by
  have h : ∫ x : ℝ, normPdf |x| = 2 * ∫ x in Ioi (0 : ℝ), normPdf x := integral_comp_abs
  have habs : ∀ x : ℝ, normPdf |x| = normPdf x := fun x => by
    simp [normPdf, sq_abs]
  simp only [habs, integral_normPdf] at h
  linarith

theorem integral_normPdf_Iic : ∫ x in Iic (0 : ℝ), normPdf x = 1 / 2 := by
  have h := integral_add_compl (measurableSet_Iic (a := (0 : ℝ))) integrable_normPdf
  rw [compl_Iic, integral_normPdf, integral_normPdf_Ioi] at h
  linarith

theorem intervalIntegral_normPdf_le_half {y : ℝ} (hy : 0 ≤ y) :
    ∫ t in (0 : ℝ)..y, normPdf t ≤ 1 / 2 := by
  rw [intervalIntegral.integral_of_le hy]
  calc ∫ t in Ioc (0 : ℝ) y, normPdf t ≤ ∫ t in Ioi (0 : ℝ), normPdf t := by
        refine setIntegral_mono_set integrable_normPdf.integrableOn ?_ ?_
        · exact Filter.Eventually.of_forall fun t => normPdf_nonneg t
        · exact HasSubset.Subset.eventuallyLE Ioc_subset_Ioi_self
    _ = 1 / 2 := integral_normPdf_Ioi

theorem intervalIntegral_normPdf_neg_le_half {y : ℝ} (hy : y ≤ 0) :
    ∫ t in y..(0 : ℝ), normPdf t ≤ 1 / 2 := by
  rw [intervalIntegral.integral_of_le hy]
  calc ∫ t in Ioc y (0 : ℝ), normPdf t ≤ ∫ t in Iic (0 : ℝ), normPdf t := by
        refine setIntegral_mono_set integrable_normPdf.integrableOn ?_ ?_
        · exact Filter.Eventually.of_forall fun t => normPdf_nonneg t
        · exact HasSubset.Subset.eventuallyLE Ioc_subset_Iic_self
    _ = 1 / 2 := integral_normPdf_Iic

theorem normCdf_zero : normCdf 0 = 1 / 2 := by
  simp [normCdf]

theorem hasDerivAt_normCdf (x : ℝ) : HasDerivAt normCdf (normPdf x) x := by
  unfold normCdf
  have h := intervalIntegral.integral_hasDerivAt_right
    (intervalIntegrable_normPdf 0 x)
    (continuous_normPdf.stronglyMeasurableAtFilter volume (nhds x))
    continuous_normPdf.continuousAt
  simpa using h.const_add (1 / 2 : ℝ)

theorem strictMono_normCdf : StrictMono normCdf := by
  apply strictMono_of_deriv_pos
  intro x
  rw [(hasDerivAt_normCdf x).deriv]
  exact normPdf_pos x

theorem monotone_normCdf : Monotone normCdf := strictMono_normCdf.monotone

theorem normCdf_add_neg (x : ℝ) : normCdf x + normCdf (-x) = 1 := by
  unfold normCdf
  have heven : ∫ t in (0 : ℝ)..(-x), normPdf t = ∫ t in (0 : ℝ)..(-x), normPdf (-t) := by
    refine intervalIntegral.integral_congr fun t _ => ?_
    rw [normPdf_neg]
  have hcomp := intervalIntegral.integral_comp_neg (a := (0 : ℝ)) (b := -x) (f := normPdf)
  have hsym : ∫ t in x..(0 : ℝ), normPdf t = -∫ t in (0 : ℝ)..x, normPdf t :=
    intervalIntegral.integral_symm 0 x
  rw [heven, hcomp]
  simp only [neg_neg, neg_zero]
  rw [hsym]
  ring

theorem normCdf_nonneg (x : ℝ) : 0 ≤ normCdf x := by
  rcases le_or_lt 0 x with hx | hx
  · have h : 0 ≤ ∫ t in (0 : ℝ)..x, normPdf t :=
      intervalIntegral.integral_nonneg hx fun u _ => normPdf_nonneg u
    unfold normCdf
    linarith
  · have h := intervalIntegral_normPdf_neg_le_half hx.le
    have hsym : ∫ t in (0 : ℝ)..x, normPdf t = -∫ t in x..(0 : ℝ), normPdf t :=
      intervalIntegral.integral_symm x 0
    unfold normCdf
    rw [hsym]
    linarith

theorem normCdf_le_one (x : ℝ) : normCdf x ≤ 1 := by
  rcases le_or_lt 0 x with hx | hx
  · have h := intervalIntegral_normPdf_le_half hx
    unfold normCdf
    linarith
  · have h : 0 ≤ ∫ t in x..(0 : ℝ), normPdf t :=
      intervalIntegral.integral_nonneg hx.le fun u _ => normPdf_nonneg u
    have hsym : ∫ t in (0 : ℝ)..x, normPdf t = -∫ t in x..(0 : ℝ), normPdf t :=
      intervalIntegral.integral_symm x 0
    unfold normCdf
    rw [hsym]
    linarith

/-! ### Exact algebraic facts about the raw prices -/

theorem rawPutPrice_parity (b : BlackScholes) :
    b.rawPutPrice = b.rawCallPrice - b.current_price +
      b.strike * Real.exp (-b.interest_rate * b.time_to_maturity) := by
  have h1 := normCdf_add_neg b.d1
  have h2 := normCdf_add_neg b.d2
  unfold BlackScholes.rawPutPrice BlackScholes.rawCallPrice
  linear_combination (b.strike * Real.exp (-b.interest_rate * b.time_to_maturity)) * h2 -
    b.current_price * h1

theorem rawCallPrice_le (b : BlackScholes) (hS : 0 ≤ b.current_price) (hK : 0 ≤ b.strike) :
    b.rawCallPrice ≤ b.current_price := by
  unfold BlackScholes.rawCallPrice
  have h1 := normCdf_le_one b.d1
  have h2 := normCdf_nonneg b.d2
  have hexp := (Real.exp_pos (-b.interest_rate * b.time_to_maturity)).le
  nlinarith [mul_nonneg hS (sub_nonneg.mpr h1),
    mul_nonneg (mul_nonneg hK hexp) h2]

theorem neg_le_rawCallPrice (b : BlackScholes) (hS : 0 ≤ b.current_price) (hK : 0 ≤ b.strike) :
    -(b.strike * Real.exp (-b.interest_rate * b.time_to_maturity)) ≤ b.rawCallPrice := by
  unfold BlackScholes.rawCallPrice
  have h1 := normCdf_nonneg b.d1
  have h2 := normCdf_le_one b.d2
  have hexp := (Real.exp_pos (-b.interest_rate * b.time_to_maturity)).le
  nlinarith [mul_nonneg hS h1,
    mul_nonneg (mul_nonneg hK hexp) (sub_nonneg.mpr h2)]

/-! ### Derivative of the call price in the spot -/

theorem normPdf_d2_identity (S K T σ r : ℝ) (hS : 0 < S) (hK : 0 < K) (hT : 0 < T)
    (hσ : 0 < σ) :
    S * normPdf ((Real.log (S / K) + (r + 0.5 * σ ^ 2) * T) / (σ * Real.sqrt T)) =
      K * Real.exp (-r * T) *
        normPdf ((Real.log (S / K) + (r + 0.5 * σ ^ 2) * T) / (σ * Real.sqrt T) -
          σ * Real.sqrt T) := by
  have hA : 0 < σ * Real.sqrt T := mul_pos hσ (Real.sqrt_pos.mpr hT)
  have hA2 : (σ * Real.sqrt T) ^ 2 = σ ^ 2 * T := by
    rw [mul_pow, Real.sq_sqrt hT.le]
  have hdA : (Real.log (S / K) + (r + 0.5 * σ ^ 2) * T) / (σ * Real.sqrt T) *
      (σ * Real.sqrt T) = Real.log (S / K) + (r + 0.5 * σ ^ 2) * T :=
    div_mul_cancel₀ _ hA.ne'
  have harg : -((Real.log (S / K) + (r + 0.5 * σ ^ 2) * T) / (σ * Real.sqrt T) -
      σ * Real.sqrt T) ^ 2 / 2 =
      -((Real.log (S / K) + (r + 0.5 * σ ^ 2) * T) / (σ * Real.sqrt T)) ^ 2 / 2 +
        (Real.log (S / K) + r * T) := by
    linear_combination hdA - (1 / 2) * hA2
  have hexp : Real.exp (-((Real.log (S / K) + (r + 0.5 * σ ^ 2) * T) / (σ * Real.sqrt T) -
      σ * Real.sqrt T) ^ 2 / 2) =
      Real.exp (-((Real.log (S / K) + (r + 0.5 * σ ^ 2) * T) / (σ * Real.sqrt T)) ^ 2 / 2) *
        (S / K * Real.exp (r * T)) := by
    rw [harg, Real.exp_add, Real.exp_add, Real.exp_log (div_pos hS hK)]
  have hE : Real.exp (-r * T) * Real.exp (r * T) = 1 := by
    rw [← Real.exp_add, show -r * T + r * T = 0 by ring, Real.exp_zero]
  have hKK : K * K⁻¹ = 1 := mul_inv_cancel₀ hK.ne'
  unfold normPdf
  rw [hexp]
  linear_combination
    (-(S * (Real.sqrt (2 * Real.pi))⁻¹ *
      Real.exp (-((Real.log (S / K) + (r + 0.5 * σ ^ 2) * T) / (σ * Real.sqrt T)) ^ 2 / 2))) * hE -
    (S * (Real.sqrt (2 * Real.pi))⁻¹ *
      Real.exp (-((Real.log (S / K) + (r + 0.5 * σ ^ 2) * T) / (σ * Real.sqrt T)) ^ 2 / 2) *
      (Real.exp (-r * T) * Real.exp (r * T))) * hKK

theorem hasDerivAt_callFn (K T σ r : ℝ) (hK : 0 < K) (hT : 0 < T) (hσ : 0 < σ)
    {x : ℝ} (hx : 0 < x) :
    HasDerivAt (fun s : ℝ =>
      s * normCdf ((Real.log (s / K) + (r + 0.5 * σ ^ 2) * T) / (σ * Real.sqrt T)) -
        K * Real.exp (-r * T) *
          normCdf ((Real.log (s / K) + (r + 0.5 * σ ^ 2) * T) / (σ * Real.sqrt T) -
            σ * Real.sqrt T))
      (normCdf ((Real.log (x / K) + (r + 0.5 * σ ^ 2) * T) / (σ * Real.sqrt T))) x := by
  have hlog : HasDerivAt (fun s : ℝ => Real.log (s / K)) (1 / K / (x / K)) x := by
    have h1 : HasDerivAt (fun s : ℝ => s / K) (1 / K) x := by
      simpa using (hasDerivAt_id x).div_const K
    exact h1.log (div_ne_zero hx.ne' hK.ne')
  have hd1 : HasDerivAt
      (fun s : ℝ => (Real.log (s / K) + (r + 0.5 * σ ^ 2) * T) / (σ * Real.sqrt T))
      (1 / K / (x / K) / (σ * Real.sqrt T)) x :=
    (hlog.add_const _).div_const _
  have hΦ1 : HasDerivAt
      (fun s : ℝ => normCdf ((Real.log (s / K) + (r + 0.5 * σ ^ 2) * T) / (σ * Real.sqrt T)))
      (normPdf ((Real.log (x / K) + (r + 0.5 * σ ^ 2) * T) / (σ * Real.sqrt T)) *
        (1 / K / (x / K) / (σ * Real.sqrt T))) x :=
    (hasDerivAt_normCdf _).comp x hd1
  have hterm1 : HasDerivAt
      (fun s : ℝ =>
        s * normCdf ((Real.log (s / K) + (r + 0.5 * σ ^ 2) * T) / (σ * Real.sqrt T)))
      (1 * normCdf ((Real.log (x / K) + (r + 0.5 * σ ^ 2) * T) / (σ * Real.sqrt T)) +
        x * (normPdf ((Real.log (x / K) + (r + 0.5 * σ ^ 2) * T) / (σ * Real.sqrt T)) *
          (1 / K / (x / K) / (σ * Real.sqrt T)))) x :=
    (hasDerivAt_id x).mul hΦ1
  have hd2 : HasDerivAt
      (fun s : ℝ => (Real.log (s / K) + (r + 0.5 * σ ^ 2) * T) / (σ * Real.sqrt T) -
        σ * Real.sqrt T)
      (1 / K / (x / K) / (σ * Real.sqrt T)) x :=
    hd1.sub_const _
  have hΦ2 : HasDerivAt
      (fun s : ℝ => normCdf ((Real.log (s / K) + (r + 0.5 * σ ^ 2) * T) / (σ * Real.sqrt T) -
        σ * Real.sqrt T))
      (normPdf ((Real.log (x / K) + (r + 0.5 * σ ^ 2) * T) / (σ * Real.sqrt T) -
        σ * Real.sqrt T) * (1 / K / (x / K) / (σ * Real.sqrt T))) x :=
    (hasDerivAt_normCdf _).comp x hd2
  have hterm2 : HasDerivAt
      (fun s : ℝ => K * Real.exp (-r * T) *
        normCdf ((Real.log (s / K) + (r + 0.5 * σ ^ 2) * T) / (σ * Real.sqrt T) -
          σ * Real.sqrt T))
      (K * Real.exp (-r * T) *
        (normPdf ((Real.log (x / K) + (r + 0.5 * σ ^ 2) * T) / (σ * Real.sqrt T) -
          σ * Real.sqrt T) * (1 / K / (x / K) / (σ * Real.sqrt T)))) x :=
    hΦ2.const_mul _
  have h := hterm1.sub hterm2
  have hid := normPdf_d2_identity x K T σ r hx hK hT hσ
  have hval : 1 * normCdf ((Real.log (x / K) + (r + 0.5 * σ ^ 2) * T) / (σ * Real.sqrt T)) +
      x * (normPdf ((Real.log (x / K) + (r + 0.5 * σ ^ 2) * T) / (σ * Real.sqrt T)) *
        (1 / K / (x / K) / (σ * Real.sqrt T))) -
      K * Real.exp (-r * T) *
        (normPdf ((Real.log (x / K) + (r + 0.5 * σ ^ 2) * T) / (σ * Real.sqrt T) -
          σ * Real.sqrt T) * (1 / K / (x / K) / (σ * Real.sqrt T))) =
      normCdf ((Real.log (x / K) + (r + 0.5 * σ ^ 2) * T) / (σ * Real.sqrt T)) := by
    linear_combination (1 / K / (x / K) / (σ * Real.sqrt T)) * hid
  rw [hval] at h
  exact h

theorem rawCallPrice_update (b : BlackScholes) (s : ℝ) :
    ({ b with current_price := s } : BlackScholes).rawCallPrice =
      s * normCdf ((Real.log (s / b.strike) +
          (b.interest_rate + 0.5 * b.volatility ^ 2) * b.time_to_maturity) /
        (b.volatility * Real.sqrt b.time_to_maturity)) -
      b.strike * Real.exp (-b.interest_rate * b.time_to_maturity) *
        normCdf ((Real.log (s / b.strike) +
            (b.interest_rate + 0.5 * b.volatility ^ 2) * b.time_to_maturity) /
          (b.volatility * Real.sqrt b.time_to_maturity) -
          b.volatility * Real.sqrt b.time_to_maturity) := rfl

theorem rawCallPrice_update_mono (b : BlackScholes) (hT : 0 < b.time_to_maturity)
    (hK : 0 < b.strike) (hσ : 0 < b.volatility) {s₁ s₂ : ℝ} (h1 : 0 < s₁) (h12 : s₁ ≤ s₂) :
    ({ b with current_price := s₁ } : BlackScholes).rawCallPrice ≤
      ({ b with current_price := s₂ } : BlackScholes).rawCallPrice := by
  have h2 : 0 < s₂ := h1.trans_le h12
  have hF : ∀ x ∈ Ioi (0 : ℝ), HasDerivAt (fun s : ℝ =>
      s * normCdf ((Real.log (s / b.strike) +
          (b.interest_rate + 0.5 * b.volatility ^ 2) * b.time_to_maturity) /
        (b.volatility * Real.sqrt b.time_to_maturity)) -
      b.strike * Real.exp (-b.interest_rate * b.time_to_maturity) *
        normCdf ((Real.log (s / b.strike) +
            (b.interest_rate + 0.5 * b.volatility ^ 2) * b.time_to_maturity) /
          (b.volatility * Real.sqrt b.time_to_maturity) -
          b.volatility * Real.sqrt b.time_to_maturity))
      (normCdf ((Real.log (x / b.strike) +
          (b.interest_rate + 0.5 * b.volatility ^ 2) * b.time_to_maturity) /
        (b.volatility * Real.sqrt b.time_to_maturity))) x := fun x hx =>
    hasDerivAt_callFn b.strike b.time_to_maturity b.volatility b.interest_rate hK hT hσ hx
  have hmono : MonotoneOn (fun s : ℝ =>
      s * normCdf ((Real.log (s / b.strike) +
          (b.interest_rate + 0.5 * b.volatility ^ 2) * b.time_to_maturity) /
        (b.volatility * Real.sqrt b.time_to_maturity)) -
      b.strike * Real.exp (-b.interest_rate * b.time_to_maturity) *
        normCdf ((Real.log (s / b.strike) +
            (b.interest_rate + 0.5 * b.volatility ^ 2) * b.time_to_maturity) /
          (b.volatility * Real.sqrt b.time_to_maturity) -
          b.volatility * Real.sqrt b.time_to_maturity)) (Ioi 0) := by
    apply monotoneOn_of_deriv_nonneg (convex_Ioi 0)
    · intro x hx
      exact (hF x hx).continuousAt.continuousWithinAt
    · rw [interior_Ioi]
      intro x hx
      exact (hF x hx).differentiableAt.differentiableWithinAt
    · rw [interior_Ioi]
      intro x hx
      rw [(hF x hx).deriv]
      exact normCdf_nonneg _
  rw [rawCallPrice_update b s₁, rawCallPrice_update b s₂]
  exact hmono (mem_Ioi.mpr h1) (mem_Ioi.mpr h2) h12

theorem rawCallPrice_update_sub_spot_antitone (b : BlackScholes) (hT : 0 < b.time_to_maturity)
    (hK : 0 < b.strike) (hσ : 0 < b.volatility) {s₁ s₂ : ℝ} (h1 : 0 < s₁) (h12 : s₁ ≤ s₂) :
    ({ b with current_price := s₂ } : BlackScholes).rawCallPrice - s₂ ≤
      ({ b with current_price := s₁ } : BlackScholes).rawCallPrice - s₁ := by
  have h2 : 0 < s₂ := h1.trans_le h12
  have hF : ∀ x ∈ Ioi (0 : ℝ), HasDerivAt (fun s : ℝ =>
      (s * normCdf ((Real.log (s / b.strike) +
          (b.interest_rate + 0.5 * b.volatility ^ 2) * b.time_to_maturity) /
        (b.volatility * Real.sqrt b.time_to_maturity)) -
      b.strike * Real.exp (-b.interest_rate * b.time_to_maturity) *
        normCdf ((Real.log (s / b.strike) +
            (b.interest_rate + 0.5 * b.volatility ^ 2) * b.time_to_maturity) /
          (b.volatility * Real.sqrt b.time_to_maturity) -
          b.volatility * Real.sqrt b.time_to_maturity)) - s)
      (normCdf ((Real.log (x / b.strike) +
          (b.interest_rate + 0.5 * b.volatility ^ 2) * b.time_to_maturity) /
        (b.volatility * Real.sqrt b.time_to_maturity)) - 1) x := fun x hx =>
    (hasDerivAt_callFn b.strike b.time_to_maturity b.volatility b.interest_rate hK hT hσ hx).sub
      (hasDerivAt_id x)
  have hanti : AntitoneOn (fun s : ℝ =>
      (s * normCdf ((Real.log (s / b.strike) +
          (b.interest_rate + 0.5 * b.volatility ^ 2) * b.time_to_maturity) /
        (b.volatility * Real.sqrt b.time_to_maturity)) -
      b.strike * Real.exp (-b.interest_rate * b.time_to_maturity) *
        normCdf ((Real.log (s / b.strike) +
            (b.interest_rate + 0.5 * b.volatility ^ 2) * b.time_to_maturity) /
          (b.volatility * Real.sqrt b.time_to_maturity) -
          b.volatility * Real.sqrt b.time_to_maturity)) - s) (Ioi 0) := by
    apply antitoneOn_of_deriv_nonpos (convex_Ioi 0)
    · intro x hx
      exact (hF x hx).continuousAt.continuousWithinAt
    · rw [interior_Ioi]
      intro x hx
      exact (hF x hx).differentiableAt.differentiableWithinAt
    · rw [interior_Ioi]
      intro x hx
      rw [(hF x hx).deriv]
      have := normCdf_le_one ((Real.log (x / b.strike) +
          (b.interest_rate + 0.5 * b.volatility ^ 2) * b.time_to_maturity) /
        (b.volatility * Real.sqrt b.time_to_maturity))
      linarith
  have h := hanti (mem_Ioi.mpr h1) (mem_Ioi.mpr h2) h12
  rw [rawCallPrice_update b s₁, rawCallPrice_update b s₂]
  exact h

/-! ### Evaluation lemmas for the engine's stored fields -/

theorem round10_zero : round10 0 = 0 :=
  IsRounded10.round10_eq ⟨0, by norm_num⟩

theorem round10_idem (x : ℝ) : round10 (round10 x) = round10 x :=
  (isRounded10_round10 x).round10_eq

theorem round10_abs_round10 (x : ℝ) : round10 |round10 x| = |round10 x| :=
  (isRounded10_round10 x).abs.round10_eq

theorem round10_sub_round10 (x y : ℝ) :
    round10 (round10 x - round10 y) = round10 x - round10 y :=
  ((isRounded10_round10 x).sub (isRounded10_round10 y)).round10_eq

theorem round10_add_round10 (x y : ℝ) :
    round10 (round10 x + round10 y) = round10 x + round10 y :=
  ((isRounded10_round10 x).add (isRounded10_round10 y)).round10_eq

theorem round10_round10_sub (x p : ℝ) (hp : round10 p = p) :
    round10 (round10 x - p) = round10 x - p :=
  ((isRounded10_round10 x).sub (hp ▸ isRounded10_round10 p)).round10_eq

theorem calculate_prices_call_price (b : BlackScholes) :
    (b.calculate_prices).call_price = round10 b.rawCallPrice := rfl

theorem calculate_prices_put_price (b : BlackScholes) :
    (b.calculate_prices).put_price = round10 b.rawPutPrice := rfl

theorem calculate_prices_call_pnl_none (b : BlackScholes)
    (hp : b.call_purchase_price = none) :
    (b.calculate_prices).call_pnl = 0 ∧ (b.calculate_prices).call_pnl_percentage = 0 := by
  constructor <;> simp [BlackScholes.calculate_prices, hp]

theorem calculate_prices_put_pnl_none (b : BlackScholes)
    (hp : b.put_purchase_price = none) :
    (b.calculate_prices).put_pnl = 0 ∧ (b.calculate_prices).put_pnl_percentage = 0 := by
  constructor <;> simp [BlackScholes.calculate_prices, hp]

theorem calculate_prices_call_pnl_guard (b : BlackScholes) (p : ℝ)
    (hp : b.call_purchase_price = some p)
    (hg : |b.time_to_maturity - b.purchase_time_to_maturity| < 1e-10) :
    (b.calculate_prices).call_pnl = 0 ∧ (b.calculate_prices).call_pnl_percentage = 0 := by
  have hg2 : |b.current_price - b.current_price| < 1e-10 := by
    rw [sub_self, abs_zero]
    norm_num
  constructor <;>
    simp [BlackScholes.calculate_prices, hp, hg, hg2] <;>
    exact fun h => absurd h (by norm_num)

theorem calculate_prices_put_pnl_guard (b : BlackScholes) (p : ℝ)
    (hp : b.put_purchase_price = some p)
    (hg : |b.time_to_maturity - b.purchase_time_to_maturity| < 1e-10) :
    (b.calculate_prices).put_pnl = 0 ∧ (b.calculate_prices).put_pnl_percentage = 0 := by
  have hg2 : |b.current_price - b.current_price| < 1e-10 := by
    rw [sub_self, abs_zero]
    norm_num
  constructor <;>
    simp [BlackScholes.calculate_prices, hp, hg, hg2] <;>
    exact fun h => absurd h (by norm_num)

theorem calculate_prices_call_pnl_far (b : BlackScholes) (p : ℝ)
    (hp : b.call_purchase_price = some p)
    (hg : ¬ |b.time_to_maturity - b.purchase_time_to_maturity| < 1e-10) :
    (b.calculate_prices).call_pnl = round10 (round10 b.rawCallPrice - p) ∧
    (b.calculate_prices).call_pnl_percentage =
      round10 (if p ≠ 0 then round10 (round10 b.rawCallPrice - p) / p * 100 else 0) := by
  constructor <;> simp [BlackScholes.calculate_prices, hp, hg]

theorem calculate_prices_put_pnl_far (b : BlackScholes) (p : ℝ)
    (hp : b.put_purchase_price = some p)
    (hg : ¬ |b.time_to_maturity - b.purchase_time_to_maturity| < 1e-10) :
    (b.calculate_prices).put_pnl = round10 (round10 b.rawPutPrice - p) ∧
    (b.calculate_prices).put_pnl_percentage =
      round10 (if p ≠ 0 then round10 (round10 b.rawPutPrice - p) / p * 100 else 0) := by
  constructor <;> simp [BlackScholes.calculate_prices, hp, hg]

theorem rawPutPrice_update_parity (b : BlackScholes) (s : ℝ) :
    ({ b with current_price := s } : BlackScholes).rawPutPrice =
      ({ b with current_price := s } : BlackScholes).rawCallPrice - s +
        b.strike * Real.exp (-b.interest_rate * b.time_to_maturity) :=
  rawPutPrice_parity _

/-! ### Claim C2 -/

/-- C2: for every valid request (`time_to_maturity`, `strike`,
`current_price`, `volatility` strictly positive, `interest_rate`
nonnegative), the prices returned by `calculate_prices` satisfy put-call
parity: `call_price - put_price` equals
`current_price - strike * exp (-interest_rate * time_to_maturity)` within
tolerance `1e-7`. -/
theorem C2_put_call_parity (b : BlackScholes) (ht : 0 < b.time_to_maturity)
    (hk : 0 < b.strike) (hs : 0 < b.current_price) (hv : 0 < b.volatility)
    (hr : 0 ≤ b.interest_rate) :
    |(b.calculate_prices).call_price - (b.calculate_prices).put_price -
      (b.current_price - b.strike * Real.exp (-b.interest_rate * b.time_to_maturity))| ≤
      1e-7 := by
  have hpar := rawPutPrice_parity b
  have h1 := abs_round10_sub b.rawCallPrice
  have h2 := abs_round10_sub b.rawPutPrice
  rw [calculate_prices_call_price, calculate_prices_put_price]
  have hkey : round10 b.rawCallPrice - round10 b.rawPutPrice -
      (b.current_price - b.strike * Real.exp (-b.interest_rate * b.time_to_maturity)) =
      (round10 b.rawCallPrice - b.rawCallPrice) -
        (round10 b.rawPutPrice - b.rawPutPrice) := by
    linear_combination (-1 : ℝ) * hpar
  rw [hkey]
  calc |(round10 b.rawCallPrice - b.rawCallPrice) -
      (round10 b.rawPutPrice - b.rawPutPrice)|
      ≤ |round10 b.rawCallPrice - b.rawCallPrice| +
        |round10 b.rawPutPrice - b.rawPutPrice| := abs_sub _ _
    _ ≤ 1 / (2 * 10 ^ 10) + 1 / (2 * 10 ^ 10) := add_le_add h1 h2
    _ ≤ 1e-7 := by norm_num

/-- Witness for C2 at the spec's reference scenario. -/
theorem C2_put_call_parity_witness :
    |(exParity.calculate_prices).call_price - (exParity.calculate_prices).put_price -
      (exParity.current_price -
        exParity.strike * Real.exp (-exParity.interest_rate * exParity.time_to_maturity))| ≤
      1e-7 :=
  C2_put_call_parity exParity (by norm_num [exParity]) (by norm_num [exParity])
    (by norm_num [exParity]) (by norm_num [exParity]) (by norm_num [exParity])

/-! ### Claim C10 -/

/-- C10: for every valid request, after `calculate_prices` the stored deltas
satisfy `call_delta - put_delta = 1`, since `call_delta = Φ(d1)` and
`put_delta = -Φ(-d1) = Φ(d1) - 1`. -/
theorem C10_delta_parity (b : BlackScholes) (ht : 0 < b.time_to_maturity)
    (hk : 0 < b.strike) (hs : 0 < b.current_price) (hv : 0 < b.volatility)
    (hr : 0 ≤ b.interest_rate) :
    (b.calculate_prices).call_delta - (b.calculate_prices).put_delta = 1 := by
  have h := normCdf_add_neg b.d1
  show normCdf b.d1 - -normCdf (-b.d1) = 1
  linarith

/-- Witness for C10 at the spec's reference scenario. -/
theorem C10_delta_parity_witness :
    (exParity.calculate_prices).call_delta - (exParity.calculate_prices).put_delta = 1 :=
  C10_delta_parity exParity (by norm_num [exParity]) (by norm_num [exParity])
    (by norm_num [exParity]) (by norm_num [exParity]) (by norm_num [exParity])

/-! ### Claims C6, C7, C8 -/

/-- C6: for every request, `calculate_risk_metrics` sets `max_call_loss` to
the absolute value of the stored call purchase price when one was supplied
and to `0.0` otherwise, and symmetrically for `max_put_loss`. -/
theorem C6_max_loss (t k s v r : ℝ) (cpp ppp ptm : Option ℝ) :
    ((mkBlackScholes t k s v r cpp ppp ptm).calculate_risk_metrics).max_call_loss =
      ((mkBlackScholes t k s v r cpp ppp ptm).call_purchase_price).elim 0 (fun p => |p|) ∧
    ((mkBlackScholes t k s v r cpp ppp ptm).calculate_risk_metrics).max_put_loss =
      ((mkBlackScholes t k s v r cpp ppp ptm).put_purchase_price).elim 0 (fun p => |p|) := by
  constructor
  · cases cpp with
    | none => simp [mkBlackScholes, BlackScholes.calculate_risk_metrics, round10_zero]
    | some q => simp [mkBlackScholes, BlackScholes.calculate_risk_metrics, round10_abs_round10]
  · cases ppp with
    | none => simp [mkBlackScholes, BlackScholes.calculate_risk_metrics, round10_zero]
    | some q => simp [mkBlackScholes, BlackScholes.calculate_risk_metrics, round10_abs_round10]

/-- C7: for every request, `calculate_risk_metrics` sets `max_call_gain` to
positive infinity — distinct from every finite value — when any call
purchase price is supplied and to `0.0` otherwise, and sets `max_put_gain`
to `strike - put_purchase_price` (on the stored values) when a put purchase
price is supplied and to `0.0` otherwise. -/
theorem C7_max_gain (t k s v r : ℝ) (cpp ppp ptm : Option ℝ) :
    (∀ p, (mkBlackScholes t k s v r cpp ppp ptm).call_purchase_price = some p →
      ((mkBlackScholes t k s v r cpp ppp ptm).calculate_risk_metrics).max_call_gain = ⊤ ∧
      ∀ x : ℝ,
        ((mkBlackScholes t k s v r cpp ppp ptm).calculate_risk_metrics).max_call_gain ≠
          (x : EReal)) ∧
    ((mkBlackScholes t k s v r cpp ppp ptm).call_purchase_price = none →
      ((mkBlackScholes t k s v r cpp ppp ptm).calculate_risk_metrics).max_call_gain =
        ((0 : ℝ) : EReal)) ∧
    (∀ p, (mkBlackScholes t k s v r cpp ppp ptm).put_purchase_price = some p →
      ((mkBlackScholes t k s v r cpp ppp ptm).calculate_risk_metrics).max_put_gain =
        (mkBlackScholes t k s v r cpp ppp ptm).strike - p) ∧
    ((mkBlackScholes t k s v r cpp ppp ptm).put_purchase_price = none →
      ((mkBlackScholes t k s v r cpp ppp ptm).calculate_risk_metrics).max_put_gain = 0) := by
  refine ⟨?_, ?_, ?_, ?_⟩
  · intro p hp
    cases cpp with
    | none => simp [mkBlackScholes] at hp
    | some q =>
      refine ⟨by simp [mkBlackScholes, BlackScholes.calculate_risk_metrics], fun x => ?_⟩
      have : ((mkBlackScholes t k s v r (some q) ppp ptm).calculate_risk_metrics).max_call_gain =
          ⊤ := by simp [mkBlackScholes, BlackScholes.calculate_risk_metrics]
      rw [this]
      exact (EReal.coe_ne_top x).symm
  · intro hp
    cases cpp with
    | none => simp [mkBlackScholes, BlackScholes.calculate_risk_metrics]
    | some q => simp [mkBlackScholes] at hp
  · intro p hp
    cases ppp with
    | none => simp [mkBlackScholes] at hp
    | some q =>
      have hpq : p = round10 q := by
        have := hp
        simp [mkBlackScholes] at this
        exact this.symm
      subst hpq
      have hval : ((mkBlackScholes t k s v r cpp (some q) ptm).calculate_risk_metrics).max_put_gain =
          round10 (round10 k - round10 q) := by
        simp [mkBlackScholes, BlackScholes.calculate_risk_metrics]
      rw [hval, round10_sub_round10]
      rfl
  · intro hp
    cases ppp with
    | none => simp [mkBlackScholes, BlackScholes.calculate_risk_metrics]
    | some q => simp [mkBlackScholes] at hp

/-- Witness for C7 at the source's at-the-money test inputs. -/
theorem C7_max_gain_witness :
    ((mkBlackScholes 1 100 100 0.2 0.05 (some 8) (some 6) none).calculate_risk_metrics).max_call_gain =
      ⊤ ∧
    ((mkBlackScholes 1 100 100 0.2 0.05 (some 8) (some 6) none).calculate_risk_metrics).max_put_gain =
      (mkBlackScholes 1 100 100 0.2 0.05 (some 8) (some 6) none).strike - 6 := by
  have h := C7_max_gain 1 100 100 0.2 0.05 (some 8) (some 6) none
  have h8 : round10 (8 : ℝ) = 8 := IsRounded10.round10_eq ⟨80000000000, by norm_num⟩
  have h6 : round10 (6 : ℝ) = 6 := IsRounded10.round10_eq ⟨60000000000, by norm_num⟩
  have hc : (mkBlackScholes 1 100 100 0.2 0.05 (some 8) (some 6) none).call_purchase_price =
      some 8 := by simp [mkBlackScholes, h8]
  have hpz : (mkBlackScholes 1 100 100 0.2 0.05 (some 8) (some 6) none).put_purchase_price =
      some 6 := by simp [mkBlackScholes, h6]
  exact ⟨(h.1 8 hc).1, h.2.2.1 6 hpz⟩

/-- C8: for every request, `calculate_risk_metrics` sets `call_breakeven` to
`strike + call_purchase_price` and `put_breakeven` to
`strike - put_purchase_price` (on the stored values), an absent purchase
price defaulting to `0`. -/
theorem C8_breakeven (t k s v r : ℝ) (cpp ppp ptm : Option ℝ) :
    ((mkBlackScholes t k s v r cpp ppp ptm).calculate_risk_metrics).call_breakeven =
      (mkBlackScholes t k s v r cpp ppp ptm).strike +
        ((mkBlackScholes t k s v r cpp ppp ptm).call_purchase_price).getD 0 ∧
    ((mkBlackScholes t k s v r cpp ppp ptm).calculate_risk_metrics).put_breakeven =
      (mkBlackScholes t k s v r cpp ppp ptm).strike -
        ((mkBlackScholes t k s v r cpp ppp ptm).put_purchase_price).getD 0 := by
  constructor
  · cases cpp with
    | none =>
      simp [mkBlackScholes, BlackScholes.calculate_risk_metrics, pyOr, round10_idem]
    | some q =>
      by_cases hq : round10 q = 0
      · simp [mkBlackScholes, BlackScholes.calculate_risk_metrics, pyOr, hq, round10_idem]
      · have : round10 (round10 k + round10 q) = round10 k + round10 q :=
          round10_add_round10 k q
        simp [mkBlackScholes, BlackScholes.calculate_risk_metrics, pyOr, hq, this]
  · cases ppp with
    | none =>
      simp [mkBlackScholes, BlackScholes.calculate_risk_metrics, pyOr, round10_idem]
    | some q =>
      by_cases hq : round10 q = 0
      · simp [mkBlackScholes, BlackScholes.calculate_risk_metrics, pyOr, hq, round10_idem]
      · have : round10 (round10 k - round10 q) = round10 k - round10 q :=
          round10_sub_round10 k q
        simp [mkBlackScholes, BlackScholes.calculate_risk_metrics, pyOr, hq, this]

/-! ### Claim C1 -/

/-- Counterexample to C1 as stated: on a request with a supplied call
purchase price of `-2` and the purchase time left at its default (equal to
`time_to_maturity`), the zero-PnL short-circuit fires, so the stored
`call_pnl` is `0`, not `call_price - (-2)`, which is at least `1`. -/
theorem C1_counterexample :
    ¬ ((exC1.calculate_prices).call_pnl =
        (exC1.calculate_prices).call_price - (-2)) := by
  have hg : |exC1.time_to_maturity - exC1.purchase_time_to_maturity| < 1e-10 := by
    show |(1 : ℝ) - 1| < 1e-10
    norm_num
  have hpnl := (calculate_prices_call_pnl_guard exC1 (-2) rfl hg).1
  have hbound := neg_le_rawCallPrice exC1 (by norm_num [exC1]) (by norm_num [exC1])
  have hKe : exC1.strike * Real.exp (-exC1.interest_rate * exC1.time_to_maturity) = 1 := by
    show (1 : ℝ) * Real.exp (-0 * 1) = 1
    norm_num [Real.exp_zero]
  rw [hKe] at hbound
  have hcp : -(1 : ℝ) ≤ (exC1.calculate_prices).call_price := by
    rw [calculate_prices_call_price]
    have h := round10_mono hbound
    have hm1 : round10 (-(1 : ℝ)) = -1 := IsRounded10.round10_eq ⟨-10000000000, by norm_num⟩
    rw [hm1] at h
    exact h
  intro h
  rw [hpnl] at h
  linarith

/-- C1 as amended: for a supplied call (resp. put) purchase price `p`
(stored values are fixed points of the rounding), when the stored purchase
time differs from `time_to_maturity` by at least `1e-10`, the stored PnL is
exactly `call_price - p` and the PnL percentage is the rounding of
`pnl / p * 100` when `p ≠ 0` and `0` otherwise; when the difference is below
`1e-10` — in particular always when the purchase time was left at its
default — both are forced to `0.0`; when the purchase price is absent, both
are `0.0`. -/
theorem C1_amended_pnl (b : BlackScholes) :
    (∀ p, b.call_purchase_price = some p → round10 p = p →
      (|b.time_to_maturity - b.purchase_time_to_maturity| < 1e-10 →
        (b.calculate_prices).call_pnl = 0 ∧ (b.calculate_prices).call_pnl_percentage = 0) ∧
      (1e-10 ≤ |b.time_to_maturity - b.purchase_time_to_maturity| →
        (b.calculate_prices).call_pnl = (b.calculate_prices).call_price - p ∧
        (b.calculate_prices).call_pnl_percentage =
          round10 (if p ≠ 0 then ((b.calculate_prices).call_price - p) / p * 100 else 0))) ∧
    (b.call_purchase_price = none →
      (b.calculate_prices).call_pnl = 0 ∧ (b.calculate_prices).call_pnl_percentage = 0) ∧
    (∀ p, b.put_purchase_price = some p → round10 p = p →
      (|b.time_to_maturity - b.purchase_time_to_maturity| < 1e-10 →
        (b.calculate_prices).put_pnl = 0 ∧ (b.calculate_prices).put_pnl_percentage = 0) ∧
      (1e-10 ≤ |b.time_to_maturity - b.purchase_time_to_maturity| →
        (b.calculate_prices).put_pnl = (b.calculate_prices).put_price - p ∧
        (b.calculate_prices).put_pnl_percentage =
          round10 (if p ≠ 0 then ((b.calculate_prices).put_price - p) / p * 100 else 0))) ∧
    (b.put_purchase_price = none →
      (b.calculate_prices).put_pnl = 0 ∧ (b.calculate_prices).put_pnl_percentage = 0) := by
  refine ⟨?_, fun hp => calculate_prices_call_pnl_none b hp, ?_,
    fun hp => calculate_prices_put_pnl_none b hp⟩
  · intro p hp hpr
    refine ⟨fun hg => calculate_prices_call_pnl_guard b p hp hg, fun hg => ?_⟩
    obtain ⟨h1, h2⟩ := calculate_prices_call_pnl_far b p hp (not_lt.mpr hg)
    constructor
    · rw [h1, calculate_prices_call_price]
      exact round10_round10_sub b.rawCallPrice p hpr
    · rw [h2, calculate_prices_call_price, round10_round10_sub b.rawCallPrice p hpr]
  · intro p hp hpr
    refine ⟨fun hg => calculate_prices_put_pnl_guard b p hp hg, fun hg => ?_⟩
    obtain ⟨h1, h2⟩ := calculate_prices_put_pnl_far b p hp (not_lt.mpr hg)
    constructor
    · rw [h1, calculate_prices_put_price]
      exact round10_round10_sub b.rawPutPrice p hpr
    · rw [h2, calculate_prices_put_price, round10_round10_sub b.rawPutPrice p hpr]

/-- Witness for the amended C1: a request with purchase time `0.5` against
maturity `1` really computes `call_pnl = call_price - 8`, and its absent put
position yields `put_pnl = 0`. -/
theorem C1_amended_pnl_witness :
    (exFar.calculate_prices).call_pnl = (exFar.calculate_prices).call_price - 8 ∧
    (exFar.calculate_prices).put_pnl = 0 := by
  have h := C1_amended_pnl exFar
  have h8 : round10 (8 : ℝ) = 8 := IsRounded10.round10_eq ⟨80000000000, by norm_num⟩
  have hg : (1e-10 : ℝ) ≤ |exFar.time_to_maturity - exFar.purchase_time_to_maturity| := by
    show (1e-10 : ℝ) ≤ |(1 : ℝ) - 0.5|
    rw [abs_of_pos (by norm_num : (0 : ℝ) < 1 - 0.5)]
    norm_num
  exact ⟨((h.1 8 rfl h8).2 hg).1, (h.2.2.2 rfl).1⟩

/-! ### Claim C3 -/

/-- Counterexample to C3 as stated: the zero-PnL branch is reachable.  On a
request with call purchase price `3`, spot and strike `2`, and the purchase
time at its default, the branch fires and stores `call_pnl = 0`, while the
price difference `round10 (call_price - 3)` is at most `-1`. -/
theorem C3_counterexample :
    ¬ ((exC3.calculate_prices).call_pnl =
        round10 ((exC3.calculate_prices).call_price - 3)) := by
  have hg : |exC3.time_to_maturity - exC3.purchase_time_to_maturity| < 1e-10 := by
    show |(1 : ℝ) - 1| < 1e-10
    norm_num
  have hpnl := (calculate_prices_call_pnl_guard exC3 3 rfl hg).1
  have hub := rawCallPrice_le exC3 (by norm_num [exC3]) (by norm_num [exC3])
  have hcp : (exC3.calculate_prices).call_price ≤ 2 := by
    rw [calculate_prices_call_price]
    have h := round10_mono hub
    have h2 : round10 exC3.current_price = 2 := by
      show round10 (2 : ℝ) = 2
      exact IsRounded10.round10_eq ⟨20000000000, by norm_num⟩
    linarith
  intro h
  have h3 : round10 ((exC3.calculate_prices).call_price - 3) ≤ -1 := by
    have hm := round10_mono (show (exC3.calculate_prices).call_price - 3 ≤ -1 by linarith)
    have hm1 : round10 (-(1 : ℝ)) = -1 := IsRounded10.round10_eq ⟨-10000000000, by norm_num⟩
    rw [hm1] at hm
    exact hm
  rw [hpnl] at h
  linarith

/-- C3 as amended: the spot part of the guard compares `current_price` with
itself and is identically true, so the zero-PnL branch is taken precisely
when `|time_to_maturity - purchase_time_to_maturity| < 1e-10` — which
includes the default configuration — and the PnL is computed from the price
difference only when that gap is at least `1e-10`. -/
theorem C3_amended_branch (b : BlackScholes) :
    (∀ p, b.call_purchase_price = some p →
      (|b.time_to_maturity - b.purchase_time_to_maturity| < 1e-10 →
        (b.calculate_prices).call_pnl = 0) ∧
      (1e-10 ≤ |b.time_to_maturity - b.purchase_time_to_maturity| →
        (b.calculate_prices).call_pnl =
          round10 ((b.calculate_prices).call_price - p))) ∧
    (∀ p, b.put_purchase_price = some p →
      (|b.time_to_maturity - b.purchase_time_to_maturity| < 1e-10 →
        (b.calculate_prices).put_pnl = 0) ∧
      (1e-10 ≤ |b.time_to_maturity - b.purchase_time_to_maturity| →
        (b.calculate_prices).put_pnl =
          round10 ((b.calculate_prices).put_price - p))) := by
  constructor
  · intro p hp
    refine ⟨fun hg => (calculate_prices_call_pnl_guard b p hp hg).1, fun hg => ?_⟩
    rw [(calculate_prices_call_pnl_far b p hp (not_lt.mpr hg)).1,
      calculate_prices_call_price]
  · intro p hp
    refine ⟨fun hg => (calculate_prices_put_pnl_guard b p hp hg).1, fun hg => ?_⟩
    rw [(calculate_prices_put_pnl_far b p hp (not_lt.mpr hg)).1,
      calculate_prices_put_price]

/-- Witness for the amended C3: the branch fires at the default purchase
time. -/
theorem C3_amended_branch_witness : (exC1.calculate_prices).call_pnl = 0 :=
  ((C3_amended_branch exC1).1 (-2) rfl).1 (by show |(1 : ℝ) - 1| < 1e-10; norm_num)

/-! ### Claim C4 -/

/-- C4: the source performs no input validation.  On the invalid request
with `time_to_maturity = -1` (where `sqrt` of a negative time makes the
formula meaningless) `calculate_prices` does not reject: it returns a full
result, whose prices the real-valued model evaluates to `0`. -/
theorem C4_no_validation :
    (exBad.calculate_prices).call_price = 0 ∧ (exBad.calculate_prices).put_price = 0 := by
  have hsqrt : Real.sqrt exBad.time_to_maturity = 0 := by
    show Real.sqrt (-1) = 0
    exact Real.sqrt_eq_zero'.mpr (by norm_num)
  have hd1 : exBad.d1 = 0 := by
    unfold BlackScholes.d1
    rw [hsqrt]
    simp
  have hd2 : exBad.d2 = 0 := by
    unfold BlackScholes.d2
    rw [hd1, hsqrt]
    simp
  constructor
  · rw [calculate_prices_call_price]
    have hraw : exBad.rawCallPrice = 0 := by
      unfold BlackScholes.rawCallPrice
      rw [hd1, hd2, normCdf_zero]
      show (100 : ℝ) * (1 / 2) - 100 * Real.exp (-0 * -1) * (1 / 2) = 0
      norm_num
    rw [hraw, round10_zero]
  · rw [calculate_prices_put_price]
    have hraw : exBad.rawPutPrice = 0 := by
      unfold BlackScholes.rawPutPrice
      rw [hd1, hd2, neg_zero, normCdf_zero]
      show (100 : ℝ) * Real.exp (-0 * -1) * (1 / 2) - 100 * (1 / 2) = 0
      norm_num
    rw [hraw, round10_zero]

/-! ### Claim C5 -/

/-- C5: for every pair of valid requests that differ only in the spot
`current_price`, the call price computed by `calculate_prices` is
non-decreasing in the spot and the put price is non-increasing in it. -/
theorem C5_monotone_in_spot (b : BlackScholes) (ht : 0 < b.time_to_maturity)
    (hk : 0 < b.strike) (hv : 0 < b.volatility) (hr : 0 ≤ b.interest_rate)
    {s₁ s₂ : ℝ} (h1 : 0 < s₁) (h12 : s₁ ≤ s₂) :
    (({ b with current_price := s₁ } : BlackScholes).calculate_prices).call_price ≤
      (({ b with current_price := s₂ } : BlackScholes).calculate_prices).call_price ∧
    (({ b with current_price := s₂ } : BlackScholes).calculate_prices).put_price ≤
      (({ b with current_price := s₁ } : BlackScholes).calculate_prices).put_price := by
  constructor
  · rw [calculate_prices_call_price, calculate_prices_call_price]
    exact round10_mono (rawCallPrice_update_mono b ht hk hv h1 h12)
  · rw [calculate_prices_put_price, calculate_prices_put_price]
    apply round10_mono
    rw [rawPutPrice_update_parity b s₁, rawPutPrice_update_parity b s₂]
    have hanti := rawCallPrice_update_sub_spot_antitone b ht hk hv h1 h12
    linarith

/-- Witness for C5: the spec's reference request with spots 90 and 110. -/
theorem C5_monotone_in_spot_witness :
    (({ exParity with current_price := 90 } : BlackScholes).calculate_prices).call_price ≤
      (({ exParity with current_price := 110 } : BlackScholes).calculate_prices).call_price ∧
    (({ exParity with current_price := 110 } : BlackScholes).calculate_prices).put_price ≤
      (({ exParity with current_price := 90 } : BlackScholes).calculate_prices).put_price :=
  C5_monotone_in_spot exParity (by norm_num [exParity]) (by norm_num [exParity])
    (by norm_num [exParity]) (by norm_num [exParity])
    (by norm_num : (0 : ℝ) < 90) (by norm_num : (90 : ℝ) ≤ 110)

/-! ### Claim C9 -/

